import Mathlib

/-!
Verification development for the MoneyTracker Smart Categorization Engine
(`SmartCategorizationEngine` in the repository's dashboard/engine script).

Numeric model: JavaScript numbers are embedded as exact rationals (`ℚ`);
all constants appearing in the source (0.1, 0.01, 0.9, 1.1, weights) are
written as exact fractions.  Strings are ASCII `String`/`List Char`; the
JS regular expressions used by `normalizeMerchant` are hand-compiled to
equivalent scanners over `List Char` (each one documented at its
definition).  JS truthiness tests (`if (x)`) on numbers are modelled
explicitly: `none` (missing) and `some 0` are falsy.
-/

namespace MoneyTracker

attribute [local semireducible] Rat.add Rat.sub Rat.mul Rat.inv

/-- JS whitespace (`\s`) restricted to the ASCII characters that occur in
bank descriptions: space, tab, newline, carriage return. -/
def isWS (c : Char) : Bool := c = ' ' || c = '\t' || c = '\n' || c = '\r'

/-- Drop leading whitespace. -/
def dropLeadWS (s : List Char) : List Char := s.dropWhile isWS

/-- Drop trailing whitespace. -/
def dropTrailWS (s : List Char) : List Char := (s.reverse.dropWhile isWS).reverse

/-- JS `String.prototype.trim`. -/
def jsTrim (s : List Char) : List Char := dropTrailWS (dropLeadWS s)

/-- Scanner for the global replace `replace(/#\d+/g, '')`: every `#`
followed by at least one digit is removed together with the maximal
digit run after it.  `fuel` bounds the recursion; it is called with the
list length, which suffices because every step consumes at least one
character. -/
def stripHashNums : Nat → List Char → List Char
  | 0, s => s
  | _ + 1, [] => []
  | fuel + 1, c :: rest =>
      if c = '#' then
        if (rest.takeWhile Char.isDigit).isEmpty then c :: stripHashNums fuel rest
        else stripHashNums fuel (rest.dropWhile Char.isDigit)
      else c :: stripHashNums fuel rest

/-- Scanner for `replace(/\s+\d{3,5}\s*$/, '')`: the regex matches iff,
after ignoring trailing whitespace, the string ends in a maximal digit
run of length 3..5 that is immediately preceded by a whitespace
character; the replacement erases that whitespace run, the digits and
the trailing whitespace. -/
def stripTrailNum (s : List Char) : List Char :=
  let t := dropTrailWS s
  let ds := t.reverse.takeWhile Char.isDigit
  let u := (t.reverse.dropWhile Char.isDigit).reverse
  if 3 ≤ ds.length && ds.length ≤ 5 && !u.isEmpty && isWS (u.getLastD ' ') then
    dropTrailWS u
  else s

/-- The fifty US state abbreviations of the source's cleanup regex,
lowercased for the case-insensitive comparison. -/
def stateCodes : List (List Char) :=
  ["al", "ak", "az", "ar", "ca", "co", "ct", "de", "fl", "ga", "hi", "id",
   "il", "in", "ia", "ks", "ky", "la", "me", "md", "ma", "mi", "mn", "ms",
   "mo", "mt", "ne", "nv", "nh", "nj", "nm", "ny", "nc", "nd", "oh", "ok",
   "or", "pa", "ri", "sc", "sd", "tn", "tx", "ut", "vt", "va", "wa", "wv",
   "wi", "wy"].map String.data

/-- Scanner for `replace(/\s+(AL|...|WY)\s*$/i, '')`: matches iff, after
ignoring trailing whitespace, the last two characters form a state code
(case-insensitively) and are immediately preceded by whitespace. -/
def stripTrailState (s : List Char) : List Char :=
  let t := dropTrailWS s
  let code := ((t.reverse.take 2).reverse.map Char.toLower)
  let u := (t.reverse.drop 2).reverse
  if code.length = 2 && stateCodes.contains code && !u.isEmpty && isWS (u.getLastD ' ') then
    dropTrailWS u
  else s

/-- Case-insensitive literal match at the start of `s` (the literal is
given lowercased); returns the remainder on success. -/
def stripLitCI : List Char → List Char → Option (List Char)
  | [], s => some s
  | _ :: _, [] => none
  | p :: ps, c :: cs => if c.toLower = p then stripLitCI ps cs else none

/-- Consume one-or-more whitespace (`\s+`) at the start. -/
def stripWSplus : List Char → Option (List Char)
  | [] => none
  | c :: rest => if isWS c then some (rest.dropWhile isWS) else none

/-- Scanner for `replace(/^TST\*\s*/i, '')`. -/
def stripTST (s : List Char) : List Char :=
  match stripLitCI "tst*".data s with
  | some r => r.dropWhile isWS
  | none => s

/-- Scanner for `replace(/^SQ\s*\*\s*/i, '')`. -/
def stripSQ (s : List Char) : List Char :=
  match stripLitCI "sq".data s with
  | some r =>
      match r.dropWhile isWS with
      | c :: r3 => if c = '*' then r3.dropWhile isWS else s
      | [] => s
  | none => s

/-- Scanner for `replace(/^AMZN\s+MKTP\s+US\*/i, '')`. -/
def stripAMZN (s : List Char) : List Char :=
  let r? := (((((stripLitCI "amzn".data s).bind stripWSplus).bind
      (stripLitCI "mktp".data)).bind stripWSplus).bind (stripLitCI "us*".data))
  match r? with
  | some r => r
  | none => s

/-- Scanner for `replace(/^WORD\s+/i, '')` (used for POS, DEBIT, CREDIT). -/
def stripWordWS (w : List Char) (s : List Char) : List Char :=
  match (stripLitCI w s).bind stripWSplus with
  | some r => r
  | none => s

/-- Character class `[A-Z0-9]` (case-sensitive, as in the source regex). -/
def isUpDig (c : Char) : Bool := c.isUpper || c.isDigit

/-- Scanner for `replace(/\s+[A-Z0-9]{8,}\s*$/, '')`: matches iff, after
ignoring trailing whitespace, the maximal trailing run of `[A-Z0-9]`
characters has length at least 8 and is immediately preceded by
whitespace. -/
def stripTrailRef (s : List Char) : List Char :=
  let t := dropTrailWS s
  let run := t.reverse.takeWhile isUpDig
  let u := (t.reverse.dropWhile isUpDig).reverse
  if 8 ≤ run.length && !u.isEmpty && isWS (u.getLastD ' ') then dropTrailWS u else s

/-- Try to match `\s+\d{1,2}sep\d{1,2}sep\d{2,4}` at the start of `s`;
on success return the remainder after the greedy match (the final digit
group consumes at most 4 digits). -/
def tryDate (sep : Char) (s : List Char) : Option (List Char) :=
  match stripWSplus s with
  | none => none
  | some r =>
    let d1 := r.takeWhile Char.isDigit
    if d1.length = 0 || 2 < d1.length then none
    else match r.drop d1.length with
      | c :: r2 =>
        if c = sep then
          let d2 := r2.takeWhile Char.isDigit
          if d2.length = 0 || 2 < d2.length then none
          else match r2.drop d2.length with
            | c2 :: r3 =>
              if c2 = sep then
                let d3 := r3.takeWhile Char.isDigit
                if d3.length < 2 then none else some (r3.drop (min 4 d3.length))
              else none
            | [] => none
        else none
      | [] => none

/-- Scanner for the global replace of the embedded-date regexes
`/\s+\d{1,2}\/\d{1,2}\/\d{2,4}/g` and `/\s+\d{1,2}-\d{1,2}-\d{2,4}/g`
(`sep` is `/` or `-`).  Fuel is the list length; every step consumes at
least one character. -/
def stripDatesAux (sep : Char) : Nat → List Char → List Char
  | 0, s => s
  | _ + 1, [] => []
  | fuel + 1, c :: rest =>
      if isWS c then
        match tryDate sep (c :: rest) with
        | some r => stripDatesAux sep fuel r
        | none => c :: stripDatesAux sep fuel rest
      else c :: stripDatesAux sep fuel rest

/-- Global replace of an embedded date pattern. -/
def stripDates (sep : Char) (s : List Char) : List Char := stripDatesAux sep s.length s

/-- Scanner for `replace(/\s+/g, ' ')`: every whitespace run becomes a
single space.  Fuel is the list length. -/
def collapseWSAux : Nat → List Char → List Char
  | 0, s => s
  | _ + 1, [] => []
  | fuel + 1, c :: rest =>
      if isWS c then ' ' :: collapseWSAux fuel (rest.dropWhile isWS)
      else c :: collapseWSAux fuel rest

/-- First field of `split(/\s{2,}|\t/)`: the prefix before the first
position where either a tab occurs or two consecutive whitespace
characters occur. -/
def takeUntilSplit : List Char → List Char
  | [] => []
  | c :: rest =>
      if c = '\t' || (isWS c && (match rest with | c2 :: _ => isWS c2 | [] => false)) then []
      else c :: takeUntilSplit rest

/-- The source's ordered merchant-mapping table.  Each pattern is a list
of lowercase literal segments; consecutive segments are separated by
`\s*` in the source regex (only `whole\s*foods`, `trader\s*joe`,
`home\s*depot`, `best\s*buy` have more than one segment). -/
def merchantMappings : List (List String × String) :=
  [(["walmart"], "Walmart"), (["target"], "Target"), (["starbucks"], "Starbucks"),
   (["amazon"], "Amazon"), (["netflix"], "Netflix"), (["spotify"], "Spotify"),
   (["shell"], "Shell"), (["chevron"], "Chevron"), (["costco"], "Costco"),
   (["safeway"], "Safeway"), (["kroger"], "Kroger"), (["whole", "foods"], "Whole Foods"),
   (["trader", "joe"], "Trader Joes"), (["home", "depot"], "Home Depot"),
   (["lowes"], "Lowes"), (["best", "buy"], "Best Buy")]

/-- Match the segments of a mapping pattern at the start of `s`, with
arbitrary whitespace (`\s*`) allowed between consecutive segments. -/
def matchSegsAt : List (List Char) → List Char → Bool
  | [], _ => true
  | [seg], s => (stripLitCI seg s).isSome
  | seg :: segs, s =>
      match stripLitCI seg s with
      | some r => matchSegsAt segs (r.dropWhile isWS)
      | none => false

/-- Case-insensitive regex test of a mapping pattern anywhere in `s`. -/
def containsSegs (segs : List (List Char)) : List Char → Bool
  | [] => matchSegsAt segs []
  | c :: rest => matchSegsAt segs (c :: rest) || containsSegs segs rest

/-- First mapping entry whose pattern tests true on the cleaned text. -/
def findMapping (s : List Char) : Option String :=
  (merchantMappings.find? (fun m => containsSegs (m.1.map String.data) s)).map (·.2)

/-- `normalizeMerchant(description)`: trim, apply the eleven cleanup
replaces in the source order, consult the merchant-mapping table (first
match wins and returns immediately), otherwise collapse whitespace,
trim, keep the first `split(/\s{2,}|\t/)` field and truncate to 40
characters. -/
def normalizeMerchant (description : String) : String :=
  if description = "" then ""
  else
    let n0 := jsTrim description.data
    let n1 := stripHashNums n0.length n0
    let n2 := stripTrailNum n1
    let n3 := stripTrailState n2
    let n4 := stripTST n3
    let n5 := stripSQ n4
    let n6 := stripAMZN n5
    let n7 := stripWordWS "pos".data n6
    let n8 := stripWordWS "debit".data n7
    let n9 := stripWordWS "credit".data n8
    let n10 := stripTrailRef n9
    let n11 := stripDates '/' n10
    let n12 := stripDates '-' n11
    match findMapping n12 with
    | some name => name
    | none =>
        let n13 := jsTrim (collapseWSAux n12.length n12)
        let n14 := takeUntilSplit n13
        let n15 := if 40 < n14.length then jsTrim (n14.take 40) else n14
        String.mk n15

/-- `Math.abs` on the rational embedding of JS numbers (kept as an
explicit conditional so that concrete evaluations reduce). -/
def jsAbs (x : ℚ) : ℚ := if x < 0 then -x else x

/-- Binary `Math.min`. -/
def jsMin (a b : ℚ) : ℚ := if a ≤ b then a else b

/-- Binary `Math.max`. -/
def jsMax (a b : ℚ) : ℚ := if a ≤ b then b else a

/-- Lowercase a string (JS `toLowerCase` on ASCII input). -/
def lowerStr (s : String) : String := String.mk (s.data.map Char.toLower)

/-- Edit-distance recurrence of `levenshteinDistance`.  The source fills
a dynamic-programming matrix over prefixes whose cell recurrence is:
equal last characters take the diagonal, otherwise
`min(diag + 1, left + 1, up + 1)` (substitute / shorten `str1` /
shorten `str2`).  Peeling reversed lists from the front visits exactly
these cells, last characters first. -/
def levRec : List Char → List Char → Nat
  | [], ys => ys.length
  | xs, [] => xs.length
  | x :: xs, y :: ys =>
      if x = y then levRec xs ys
      else min (levRec xs ys + 1) (min (levRec xs (y :: ys) + 1) (levRec (x :: xs) ys + 1))

/-- `levenshteinDistance(str1, str2)`: the bottom-right cell of the
source's DP matrix, computed via `levRec` on the reversed strings. -/
def levenshteinDistance (str1 str2 : String) : Nat :=
  levRec str1.data.reverse str2.data.reverse

/-- Exact literal match at the start of the second list. -/
def eqAt : List Char → List Char → Bool
  | [], _ => true
  | _ :: _, [] => false
  | a :: as, b :: bs => a == b && eqAt as bs

/-- JS `hay.includes(needle)`: substring containment (case-sensitive;
the caller has already lowercased both strings). -/
def subStr (needle : List Char) : List Char → Bool
  | [] => eqAt needle []
  | c :: rest => eqAt needle (c :: rest) || subStr needle rest

/-- `calculateSimilarity(str1, str2)`: 0 if either is empty (JS
falsiness of `''`), 100 on case-insensitive equality, 85 if one
contains the other, otherwise the normalized edit distance
`max(0, (maxLen - distance) / maxLen * 100)`. -/
def calculateSimilarity (str1 str2 : String) : ℚ :=
  if str1 = "" || str2 = "" then 0
  else
    let s1 := lowerStr str1
    let s2 := lowerStr str2
    if s1 = s2 then 100
    else if subStr s2.data s1.data || subStr s1.data s2.data then 85
    else
      let distance := levenshteinDistance s1 s2
      let maxLen := max s1.length s2.length
      jsMax 0 ((((maxLen : ℚ) - (distance : ℚ)) / (maxLen : ℚ)) * 100)

/-- A calendar date as the engine consumes it (`new Date(t.date)`);
`day` is `getDate()`.  Comparison by time value is lexicographic on
(year, month, day) for valid dates. -/
structure JsDate where
  year : Int
  month : Nat
  day : Nat
deriving DecidableEq

/-- Date comparison corresponding to the JS comparator `(a, b) => a - b`. -/
def dateLE (a b : JsDate) : Bool :=
  decide (a.year < b.year ∨ (a.year = b.year ∧
    (a.month < b.month ∨ (a.month = b.month ∧ a.day ≤ b.day))))

/-- Transaction record.  The four suggestion fields are JS properties
that are deleted as a group; a deleted property is `none`. -/
structure Transaction where
  id : Nat
  description : String
  amount : ℚ
  date : JsDate
  categoryId : Option Nat := none
  isSplit : Bool := false
  pendingReview : Option Bool := none
  suggestionConfidence : Option ℚ := none
  suggestionReasoning : Option String := none
  suggestionPatternId : Option Nat := none
deriving DecidableEq

/-- Persisted Pattern record (design doc "Patterns Table").  `id` is the
IndexedDB autoincrement key, which is always at least 1; `lastSeen`
timestamps are opaque and modelled as the `now` value passed in.
`amountMin`/`amountMax` are optional because the merge code guards
against records lacking them. -/
structure Pattern where
  id : Nat
  merchantName : String
  categoryId : Nat
  matchCount : Nat
  acceptCount : Nat
  denyCount : Nat
  lastSeen : Nat
  amountMin : Option ℚ
  amountMax : Option ℚ
  isRecurring : Bool
  recurrencePattern : Option String
deriving DecidableEq

/-- The object literal built inside `minePatterns` (no `id` yet;
`amountMin`/`amountMax` always computed). -/
structure MinedPattern where
  merchantName : String
  categoryId : Nat
  matchCount : Nat
  acceptCount : Nat
  denyCount : Nat
  lastSeen : Nat
  amountMin : ℚ
  amountMax : ℚ
  isRecurring : Bool
  recurrencePattern : Option String
deriving DecidableEq

/-- JS truthiness of an optional number: missing and 0 are falsy. -/
def truthyQ : Option ℚ → Bool
  | none => false
  | some v => v != 0

/-- JS truthiness of an optional numeric id: missing and 0 are falsy. -/
def truthyNat : Option Nat → Bool
  | none => false
  | some n => n != 0

/-- JS truthiness of an optional boolean property. -/
def truthyB : Option Bool → Bool
  | none => false
  | some b => b

/-- Result record of `detectRecurringPattern`. -/
structure RecResult where
  isRecurring : Bool
  pattern : Option String
deriving DecidableEq

/-- Insert into a sorted list (ascending by `le`). -/
def insertSorted {α : Type} (le : α → α → Bool) (x : α) : List α → List α
  | [] => [x]
  | y :: ys => if le x y then x :: y :: ys else y :: insertSorted le x ys

/-- Insertion sort; models JS `Array.prototype.sort` with an ascending
comparator (any order-correct sort gives the same result here). -/
def sortBy {α : Type} (le : α → α → Bool) : List α → List α
  | [] => []
  | x :: xs => insertSorted le x (sortBy le xs)

/-- `detectRecurringPattern(transaction, historicalTransactions)`:
filter to similar transactions (absolute amount within 10%, merchant
similarity > 70, different id), require at least 2, then classify as
monthly iff every candidate's day-of-month is within 3 of the mean
day-of-month. -/
def detectRecurringPattern (transaction : Transaction)
    (historicalTransactions : List Transaction) : RecResult :=
  let amount := jsAbs transaction.amount
  let merchantName := normalizeMerchant transaction.description
  let similarTransactions := historicalTransactions.filter (fun t =>
    let tAmount := jsAbs t.amount
    let amountMatch := decide (jsAbs (tAmount - amount) ≤ amount * (1 / 10))
    let merchantMatch := decide (70 < calculateSimilarity merchantName (normalizeMerchant t.description))
    amountMatch && merchantMatch && t.id != transaction.id)
  if similarTransactions.length < 2 then { isRecurring := false, pattern := none }
  else
    let dates := sortBy dateLE (similarTransactions.map (fun t => t.date))
    let dayOfMonth := dates.map (fun d => d.day)
    let avgDay : ℚ := (dayOfMonth.foldl (fun sum day => sum + (day : ℚ)) 0) / (dayOfMonth.length : ℚ)
    let dayVariance := dayOfMonth.all (fun day => decide (jsAbs ((day : ℚ) - avgDay) ≤ 3))
    if dayVariance && decide (2 ≤ similarTransactions.length) then
      { isRecurring := true, pattern := some "monthly" }
    else { isRecurring := false, pattern := none }

/-- Factor 3 of `calculateConfidence` (amount matching, 0-20 points).
The guard is the JS truthiness test `pattern.amountMin &&
pattern.amountMax`: a missing or zero bound skips the factor. -/
def amountScore (amount : ℚ) (pattern : Pattern) : ℚ :=
  if truthyQ pattern.amountMin && truthyQ pattern.amountMax then
    let aMin := pattern.amountMin.getD 0
    let aMax := pattern.amountMax.getD 0
    if jsAbs (amount - aMin) < 1 / 100 then 20
    else if aMin ≤ amount ∧ amount ≤ aMax then 15
    else if aMin * (9 / 10) ≤ amount ∧ amount ≤ aMax * (11 / 10) then 10
    else 0
  else 0

/-- `calculateConfidence(transaction, pattern)`: the five weighted
factors summed then clamped to [0, 100]. -/
def calculateConfidence (transaction : Transaction) (pattern : Pattern) : ℚ :=
  let matchScore := jsMin 40 ((pattern.matchCount : ℚ) * 5)
  let merchantName := normalizeMerchant transaction.description
  let similarityScore := calculateSimilarity merchantName pattern.merchantName
  let amount := jsAbs transaction.amount
  let feedbackScore : ℚ :=
    if 0 < pattern.acceptCount + pattern.denyCount then
      let frac : ℚ := (pattern.acceptCount : ℚ) / ((pattern.acceptCount + pattern.denyCount : Nat) : ℚ)
      if 9 / 10 ≤ frac then 10 else if frac < 1 / 2 then -20 else 0
    else 0
  let confidence := matchScore + similarityScore / 100 * 30 + amountScore amount pattern
      + (if pattern.isRecurring then 10 else 0) + feedbackScore
  jsMax 0 (jsMin 100 confidence)

/-- `generateReasoning(transaction, pattern, confidence)` (the
confidence argument is unused in the source too). -/
def generateReasoning (transaction : Transaction) (pattern : Pattern) (_confidence : ℚ) : String :=
  let merchantName := normalizeMerchant transaction.description
  let similarity := calculateSimilarity merchantName pattern.merchantName
  let parts : List String :=
    (if 95 < similarity then ["Exact match with \"" ++ pattern.merchantName ++ "\""]
     else if 70 < similarity then ["Similar to \"" ++ pattern.merchantName ++ "\""]
     else []) ++
    (if pattern.matchCount = 1 then ["1 similar transaction"]
     else if 1 < pattern.matchCount then [toString pattern.matchCount ++ " similar transactions"]
     else []) ++
    (if pattern.isRecurring then ["recurring transaction"] else []) ++
    (let amount := jsAbs transaction.amount
     if truthyQ pattern.amountMin && decide (jsAbs (amount - pattern.amountMin.getD 0) < 1 / 100) then
       ["exact amount match"]
     else [])
  String.intercalate ", " parts

/-- A match returned by `findBestMatch`. -/
structure BestMatch where
  pattern : Pattern
  confidence : ℚ
  reasoning : String
deriving DecidableEq

/-- Engine state: the loaded patterns and the configurable threshold. -/
structure Engine where
  patterns : List Pattern
  confidenceThreshold : ℚ
deriving DecidableEq

/-- The `for (const pattern of this.patterns)` loop of `findBestMatch`:
accumulator is `(bestMatch, bestConfidence)`, updated only on a strictly
greater confidence. -/
def bestLoop (t : Transaction) : List Pattern → Option BestMatch × ℚ → Option BestMatch × ℚ
  | [], acc => acc
  | p :: rest, acc =>
      let confidence := calculateConfidence t p
      if acc.2 < confidence then
        bestLoop t rest
          (some { pattern := p, confidence := confidence,
                  reasoning := generateReasoning t p confidence }, confidence)
      else bestLoop t rest acc

/-- `findBestMatch(transaction)`: no match for an empty normalized
merchant; otherwise scan all patterns and return the best match only if
one was recorded (confidence strictly above the initial 0) and its
confidence reaches the threshold. -/
def findBestMatch (e : Engine) (t : Transaction) : Option BestMatch :=
  let merchantName := normalizeMerchant t.description
  if merchantName = "" then none
  else
    let res := bestLoop t e.patterns (none, 0)
    match res.1 with
    | some b => if e.confidenceThreshold ≤ res.2 then some b else none
    | none => none

/-- Modelled from the spec: the storage collaborator for Pattern records
(`getPatterns`/`addPattern`/`updatePattern`, spec section 6) is not part
of `src/db.js`; it is an IndexedDB object store keyed by an
autoincrement `id` (autoincrement keys start at 1), here a list plus
the next key. -/
structure Db where
  patterns : List Pattern
  nextId : Nat
deriving DecidableEq

/-- Apply `f` to the first pattern whose `id` equals `pid` (JS
`find` followed by in-place mutation); identity when absent. -/
def bumpFirst (f : Pattern → Pattern) (pid : Nat) : List Pattern → List Pattern
  | [] => []
  | p :: rest => if p.id = pid then f p :: rest else p :: bumpFirst f pid rest

/-- Modelled from the spec: `addPattern` inserts a new record under the
next autoincrement key. -/
def Db.addPattern (db : Db) (p : MinedPattern) : Db :=
  { patterns := db.patterns ++
      [{ id := db.nextId, merchantName := p.merchantName, categoryId := p.categoryId,
         matchCount := p.matchCount, acceptCount := p.acceptCount, denyCount := p.denyCount,
         lastSeen := p.lastSeen, amountMin := some p.amountMin, amountMax := some p.amountMax,
         isRecurring := p.isRecurring, recurrencePattern := p.recurrencePattern }],
    nextId := db.nextId + 1 }

/-- Modelled from the spec: `updatePattern` replaces the stored record
with the same key. -/
def Db.updatePattern (db : Db) (p : Pattern) : Db :=
  { db with patterns := bumpFirst (fun _ => p) p.id db.patterns }

/-- The merge branch of `updatePatternsInDatabase`: `matchCount`,
`lastSeen`, `isRecurring`, `recurrencePattern` are replaced;
`amountMin` becomes `Math.min(existing.amountMin || Infinity, new)`
(so a falsy stored minimum is discarded) and `amountMax` becomes
`Math.max(existing.amountMax || 0, new)`; everything else, in
particular `acceptCount`/`denyCount`/`id`, is untouched. -/
def mergePattern (existing : Pattern) (newPattern : MinedPattern) : Pattern :=
  { existing with
    matchCount := newPattern.matchCount
    lastSeen := newPattern.lastSeen
    amountMin := some (if truthyQ existing.amountMin then
        jsMin (existing.amountMin.getD 0) newPattern.amountMin else newPattern.amountMin)
    amountMax := some (if truthyQ existing.amountMax then
        jsMax (existing.amountMax.getD 0) newPattern.amountMax else jsMax 0 newPattern.amountMax)
    isRecurring := newPattern.isRecurring
    recurrencePattern := newPattern.recurrencePattern }

/-- `updatePatternsInDatabase(newPatterns)`: look each freshly mined
pattern up by (merchantName, categoryId) in the snapshot of existing
patterns; merge in place when found, insert otherwise. -/
def updatePatternsInDatabase (db : Db) (newPatterns : List MinedPattern) : Db :=
  let existingPatterns := db.patterns
  newPatterns.foldl (fun acc newPattern =>
    match existingPatterns.find? (fun p =>
        p.merchantName == newPattern.merchantName && p.categoryId == newPattern.categoryId) with
    | some existing => acc.updatePattern (mergePattern existing newPattern)
    | none => acc.addPattern newPattern) db

/-- One entry of the `patternMap` built by `minePatterns` (a JS `Map`
preserves insertion order; keying by the pair is exact because the `|`
separator cannot occur in the numeric categoryId). -/
structure MineGroup where
  merchantName : String
  categoryId : Nat
  txns : List Transaction
  amounts : List ℚ

/-- Append a transaction to its `patternMap` group, creating the group
at the end on first occurrence. -/
def pushToKey (m : String) (c : Nat) (t : Transaction) : List MineGroup → List MineGroup
  | [] => [{ merchantName := m, categoryId := c, txns := [t], amounts := [jsAbs t.amount] }]
  | g :: rest =>
      if g.merchantName = m ∧ g.categoryId = c then
        { g with txns := g.txns ++ [t], amounts := g.amounts ++ [jsAbs t.amount] } :: rest
      else g :: pushToKey m c t rest

/-- Placeholder transaction; `minePatterns` only reads group heads and
every group is nonempty, so it is never consumed. -/
def emptyTransaction : Transaction :=
  { id := 0, description := "", amount := 0, date := { year := 0, month := 1, day := 1 } }

/-- `Math.min(...list)`; the empty case (JS Infinity) is unreachable
because mined groups are nonempty. -/
def listMinQ : List ℚ → ℚ
  | [] => 0
  | x :: xs => xs.foldl jsMin x

/-- `Math.max(...list)`; empty case unreachable as for `listMinQ`. -/
def listMaxQ : List ℚ → ℚ
  | [] => 0
  | x :: xs => xs.foldl jsMax x

/-- `minePatterns(transactions)`: keep categorized, non-split,
non-pending transactions; group by (normalized merchant, categoryId)
skipping empty merchants; emit one mined pattern per group
(matchCount = acceptCount = group size, denyCount 0, amount range from
the sorted absolute amounts, recurrence from the group's first
transaction against the whole group); then merge into the store. -/
def minePatterns (now : Nat) (transactions : List Transaction) (db : Db) :
    List MinedPattern × Db :=
  let categorizedTransactions := transactions.filter (fun t =>
    truthyNat t.categoryId && !t.isSplit && !truthyB t.pendingReview)
  let groups := categorizedTransactions.foldl (fun gs t =>
    let merchantName := normalizeMerchant t.description
    if merchantName = "" then gs
    else pushToKey merchantName (t.categoryId.getD 0) t gs) []
  let patterns := groups.map (fun g =>
    let amounts := sortBy (fun a b => decide (a ≤ b)) g.amounts
    let recurrence := detectRecurringPattern (g.txns.headD emptyTransaction) g.txns
    ({ merchantName := g.merchantName
       categoryId := g.categoryId
       matchCount := g.txns.length
       acceptCount := g.txns.length
       denyCount := 0
       lastSeen := now
       amountMin := listMinQ amounts
       amountMax := listMaxQ amounts
       isRecurring := recurrence.isRecurring
       recurrencePattern := recurrence.pattern } : MinedPattern))
  let db' := updatePatternsInDatabase db patterns
  (patterns, db')

/-- `acceptSuggestion(transaction)`: no-op on a falsy
`suggestionPatternId`; otherwise bump the referenced pattern's
`acceptCount` and refresh its `lastSeen` (if loaded), then delete the
four suggestion fields.  The returned pair is the resulting engine and
transaction state (persistence returns the same records). -/
def acceptSuggestion (now : Nat) (e : Engine) (t : Transaction) : Engine × Transaction :=
  if truthyNat t.suggestionPatternId then
    let pid := t.suggestionPatternId.getD 0
    let ps' := bumpFirst (fun p => { p with acceptCount := p.acceptCount + 1, lastSeen := now }) pid e.patterns
    let e' := { e with patterns := ps' }
    (e', { t with pendingReview := none, suggestionConfidence := none,
                  suggestionReasoning := none, suggestionPatternId := none })
  else (e, t)

/-- `denySuggestion(transaction)`: no-op on a falsy
`suggestionPatternId`; otherwise bump the referenced pattern's
`denyCount` (if loaded), clear `categoryId` and delete the four
suggestion fields. -/
def denySuggestion (e : Engine) (t : Transaction) : Engine × Transaction :=
  if truthyNat t.suggestionPatternId then
    let pid := t.suggestionPatternId.getD 0
    let ps' := bumpFirst (fun p => { p with denyCount := p.denyCount + 1 }) pid e.patterns
    let e' := { e with patterns := ps' }
    (e', { t with categoryId := none, pendingReview := none, suggestionConfidence := none,
                  suggestionReasoning := none, suggestionPatternId := none })
  else (e, t)

/-- Spec-side restatement of the linear scan of `findBestMatch`: the
maximum confidence over the loaded patterns, starting from the
initial `bestConfidence` of 0. -/
def maxConfidence (t : Transaction) (ps : List Pattern) : ℚ :=
  ps.foldl (fun m p => max m (calculateConfidence t p)) 0

/-- The amount factor exactly as claim C3 words it: it applies whenever
`amountMin` and `amountMax` are present (recorded), including a
recorded `amountMin` of 0. -/
def amountFactorClaimed (amount : ℚ) (p : Pattern) : ℚ :=
  match p.amountMin, p.amountMax with
  | some lo, some hi =>
      if jsAbs (amount - lo) < 1 / 100 then 20
      else if lo ≤ amount ∧ amount ≤ hi then 15
      else if lo * (9 / 10) ≤ amount ∧ amount ≤ hi * (11 / 10) then 10
      else 0
  | _, _ => 0

/-- The amount factor as amended: it applies only when both bounds are
present AND nonzero (JS truthiness); otherwise it contributes 0. -/
def amountFactorAmended (amount : ℚ) (p : Pattern) : ℚ :=
  match p.amountMin, p.amountMax with
  | some lo, some hi =>
      if lo ≠ 0 ∧ hi ≠ 0 then
        if jsAbs (amount - lo) < 1 / 100 then 20
        else if lo ≤ amount ∧ amount ≤ hi then 15
        else if lo * (9 / 10) ≤ amount ∧ amount ≤ hi * (11 / 10) then 10
        else 0
      else 0
  | _, _ => 0

/-- The canonical names produced by the merchant-mapping table. -/
def canonicalMerchantNames : List String := merchantMappings.map (fun m => m.2)

/-- Groceries category id used in the end-to-end scenario (any nonzero
IndexedDB category key). -/
def groceriesId : Nat := 7

/-- One of the five categorized Walmart transactions of claim C1. -/
def walTx (i : Nat) (amt : ℚ) (m : Nat) : Transaction :=
  { id := i, description := "WALMART #1234", amount := amt,
    date := { year := 2024, month := m, day := 1 }, categoryId := some groceriesId }

/-- The five-transaction history of claim C1 (absolute amounts 40-60). -/
def txListC1 : List Transaction :=
  [walTx 1 (-40) 1, walTx 2 (-45) 2, walTx 3 (-50) 3, walTx 4 (-55) 4, walTx 5 (-60) 5]

/-- The store after mining the C1 history into an empty store. -/
def dbAfterMineC1 : Db := (minePatterns 0 txListC1 { patterns := [], nextId := 1 }).2

/-- Engine loaded with the mined patterns, threshold 70. -/
def engC1 : Engine := { patterns := dbAfterMineC1.patterns, confidenceThreshold := 70 }

/-- The new uncategorized, non-split transaction of claim C1. -/
def tNewC1 : Transaction :=
  { id := 6, description := "WALMART #9981", amount := -45,
    date := { year := 2024, month := 6, day := 10 } }

/-- Recurring-detection probe transactions of claim C2: same merchant,
same amount, dated the 1st, 3rd and 30th of consecutive months. -/
def recTx (i : Nat) (m : Nat) (d : Nat) : Transaction :=
  { id := i, description := "Netflix", amount := -10,
    date := { year := 2024, month := m, day := d } }

/-- First of the C2 group (dated the 1st). -/
def txR1 : Transaction := recTx 1 1 1

/-- Second of the C2 group (dated the 3rd of the next month). -/
def txR2 : Transaction := recTx 2 2 3

/-- Third of the C2 group (dated the 30th of the month after). -/
def txR3 : Transaction := recTx 3 3 30

/-- C3 counterexample pattern: a recorded range whose minimum is 0. -/
def patMinZero : Pattern :=
  { id := 2, merchantName := "Walmart", categoryId := groceriesId, matchCount := 1,
    acceptCount := 1, denyCount := 0, lastSeen := 0, amountMin := some 0,
    amountMax := some 10, isRecurring := false, recurrencePattern := none }

/-- C4 counterexample store entry: an existing pattern whose recorded
`amountMin` is 0 (its observed range starts at 0). -/
def patC4old : Pattern :=
  { id := 1, merchantName := "Walmart", categoryId := groceriesId, matchCount := 3,
    acceptCount := 3, denyCount := 0, lastSeen := 0, amountMin := some 0,
    amountMax := some 10, isRecurring := false, recurrencePattern := none }

/-- C4 counterexample freshly mined pattern with range [5, 8]. -/
def minedC4 : MinedPattern :=
  { merchantName := "Walmart", categoryId := groceriesId, matchCount := 5, acceptCount := 5,
    denyCount := 0, lastSeen := 1, amountMin := 5, amountMax := 8,
    isRecurring := false, recurrencePattern := none }

/-- C4 counterexample store. -/
def dbC4 : Db := { patterns := [patC4old], nextId := 2 }

/-- C4 witness store entry (nonzero recorded bounds). -/
def patC4W : Pattern :=
  { id := 1, merchantName := "Walmart", categoryId := groceriesId, matchCount := 3,
    acceptCount := 4, denyCount := 2, lastSeen := 0, amountMin := some 2,
    amountMax := some 10, isRecurring := true, recurrencePattern := some "monthly" }

/-- C4 witness store. -/
def dbC4W : Db := { patterns := [patC4W], nextId := 2 }

/-- C5 counterexample pattern scoring exactly 0 against `tPlain`
(empty merchant name, no history, no range, no feedback). -/
def patEmptyName : Pattern :=
  { id := 1, merchantName := "", categoryId := groceriesId, matchCount := 0, acceptCount := 0,
    denyCount := 0, lastSeen := 0, amountMin := none, amountMax := none,
    isRecurring := false, recurrencePattern := none }

/-- A plain transaction with a nonempty normalized merchant. -/
def tPlain : Transaction :=
  { id := 9, description := "Walmart", amount := -5,
    date := { year := 2024, month := 1, day := 1 } }

/-- C5 counterexample engine: threshold 0 with the zero-scoring pattern. -/
def engC5cx : Engine := { patterns := [patEmptyName], confidenceThreshold := 0 }

/-- C6 pattern referenced by a pending suggestion. -/
def patC6 : Pattern :=
  { id := 3, merchantName := "Netflix", categoryId := 9, matchCount := 4, acceptCount := 4,
    denyCount := 1, lastSeen := 5, amountMin := some 10, amountMax := some 10,
    isRecurring := true, recurrencePattern := some "monthly" }

/-- C6 engine holding the referenced pattern. -/
def engC6 : Engine := { patterns := [patC6], confidenceThreshold := 70 }

/-- C6 transaction in the Suggested state, referencing pattern 3. -/
def tSuggested : Transaction :=
  { id := 11, description := "Netflix", amount := -10,
    date := { year := 2024, month := 4, day := 2 }, categoryId := some 9,
    isSplit := false, pendingReview := some true, suggestionConfidence := some 80,
    suggestionReasoning := some "Exact match with \"Netflix\"", suggestionPatternId := some 3 }

/-- C10 transaction whose `suggestionPatternId` (42) matches no loaded
pattern. -/
def tDangling : Transaction :=
  { id := 12, description := "Netflix", amount := -10,
    date := { year := 2024, month := 4, day := 2 }, categoryId := some 9,
    isSplit := false, pendingReview := some true, suggestionConfidence := some 80,
    suggestionReasoning := some "Exact match with \"Netflix\"", suggestionPatternId := some 42 }

/-- The single pattern the C1 history mines to (autoincrement id 1,
mined at time 0; not recurring because no two of the five amounts are
within 10% of each other). -/
def patC1 : Pattern :=
  { id := 1, merchantName := "Walmart", categoryId := groceriesId, matchCount := 5,
    acceptCount := 5, denyCount := 0, lastSeen := 0, amountMin := some 40,
    amountMax := some 60, isRecurring := false, recurrencePattern := none }

/-- The match `findBestMatch` returns for the C1 probe: volume 25 +
similarity 30 + in-range 15 + feedback 10 = 80. -/
def matchC1 : BestMatch :=
  { pattern := patC1, confidence := 80,
    reasoning := "Exact match with \"Walmart\", 5 similar transactions" }

/-- The final clamp of `calculateConfidence` keeps any rational in
[0, 100]. -/
theorem clamp_bounds (x : ℚ) : 0 ≤ jsMax 0 (jsMin 100 x) ∧ jsMax 0 (jsMin 100 x) ≤ 100 := by
  unfold jsMax jsMin
  split_ifs <;> constructor <;> linarith

/-- Claim C7: for every transaction and every pattern,
`calculateConfidence` returns a value between 0 and 100, whatever the
unclamped sum of the five factors is. -/
theorem c7_confidence_in_range (t : Transaction) (p : Pattern) :
    0 ≤ calculateConfidence t p ∧ calculateConfidence t p ≤ 100 := by
  unfold calculateConfidence
  exact clamp_bounds _

/-- The edit-distance recurrence is symmetric in its two strings. -/
theorem levRec_comm (a b : List Char) : levRec a b = levRec b a := by
  induction a, b using levRec.induct with
  | case1 ys => cases ys <;> simp [levRec]
  | case2 xs h => cases xs <;> simp [levRec]
  | case3 xs y ys ih => simp [levRec, ih]
  | case4 x xs y ys h ih1 ih2 ih3 =>
      have h' : ¬ y = x := fun hh => h hh.symm
      simp only [levRec, if_neg h, if_neg h']
      rw [ih1, ih2, ih3]
      omega

/-- `levenshteinDistance` is symmetric. -/
theorem levenshteinDistance_comm (a b : String) :
    levenshteinDistance a b = levenshteinDistance b a :=
  levRec_comm a.data.reverse b.data.reverse

/-- Claim C8: similarity is 100 on any nonempty string against itself,
and is symmetric in its two arguments. -/
theorem c8_similarity_refl_symm :
    (∀ a : String, a ≠ "" → calculateSimilarity a a = 100) ∧
    (∀ a b : String, calculateSimilarity a b = calculateSimilarity b a) := by
  constructor
  · intro a ha
    simp [calculateSimilarity, ha]
  · intro a b
    simp only [calculateSimilarity]
    by_cases ha : a = ""
    · by_cases hb : b = "" <;> simp [ha, hb]
    · by_cases hb : b = ""
      · simp [ha, hb]
      · rw [if_neg (show ¬ ((decide (a = "") || decide (b = "")) = true) by simp [ha, hb]),
          if_neg (show ¬ ((decide (b = "") || decide (a = "")) = true) by simp [ha, hb])]
        by_cases h12 : lowerStr a = lowerStr b
        · rw [if_pos h12, if_pos h12.symm]
        · have h21 : ¬ lowerStr b = lowerStr a := fun hh => h12 hh.symm
          rw [if_neg h12, if_neg h21,
            Bool.or_comm (subStr (lowerStr b).data (lowerStr a).data)
              (subStr (lowerStr a).data (lowerStr b).data),
            levenshteinDistance_comm (lowerStr a) (lowerStr b),
            Nat.max_comm (lowerStr a).length (lowerStr b).length]

/-- Witness for C8 at concrete strings. -/
theorem c8_witness :
    ("ab" ≠ "" ∧ calculateSimilarity "ab" "ab" = 100) ∧
    calculateSimilarity "ab" "cd" = calculateSimilarity "cd" "ab" :=
  ⟨⟨by decide, c8_similarity_refl_symm.1 "ab" (by decide)⟩,
   c8_similarity_refl_symm.2 "ab" "cd"⟩

set_option maxHeartbeats 4000000 in
/-- Claim C9, counterexample: `normalize` is not idempotent on every
description — stripping the DEBIT prefix exposes a POS prefix that only
a second pass would strip. -/
theorem c9_counterexample :
    normalizeMerchant "DEBIT POS FOO" = "POS FOO" ∧
    normalizeMerchant "POS FOO" = "FOO" ∧
    normalizeMerchant (normalizeMerchant "DEBIT POS FOO") ≠
      normalizeMerchant "DEBIT POS FOO" := by
  decide

set_option maxHeartbeats 4000000 in
/-- Claim C9, amended: `normalize` is a fixpoint on every description
whose normalization lands in the canonical merchant-mapping table. -/
theorem c9_idempotent_on_canonical (x : String)
    (hx : normalizeMerchant x ∈ canonicalMerchantNames) :
    normalizeMerchant (normalizeMerchant x) = normalizeMerchant x := by
  have h16 : ∀ n ∈ canonicalMerchantNames, normalizeMerchant n = n := by decide
  exact h16 _ hx

set_option maxHeartbeats 4000000 in
/-- Witness for the amended C9 at a concrete description. -/
theorem c9_witness :
    normalizeMerchant "WALMART #1234" ∈ canonicalMerchantNames ∧
    normalizeMerchant (normalizeMerchant "WALMART #1234") =
      normalizeMerchant "WALMART #1234" :=
  ⟨by decide, c9_idempotent_on_canonical "WALMART #1234" (by decide)⟩

set_option maxHeartbeats 4000000 in
/-- Claim C2, counterexample: with candidates on the 3rd and the 30th
(probing the group's first transaction, dated the 1st), the mean
day-of-month is 16.5 and the within-3 test fails, so the code reports
not-recurring, contrary to the claim. -/
theorem c2_counterexample :
    detectRecurringPattern txR1 [txR1, txR2, txR3] =
      { isRecurring := false, pattern := none } ∧
    ¬ detectRecurringPattern txR1 [txR1, txR2, txR3] =
      { isRecurring := true, pattern := some "monthly" } := by
  decide

set_option maxHeartbeats 4000000 in
/-- Claim C2, amended: probing the transaction dated the 30th (whose
candidates, the 1st and the 3rd, have mean day 2) yields a monthly
recurrence; probing the group's first transaction (dated the 1st)
yields not-recurring; and a single prior similar occurrence yields
not-recurring. -/
theorem c2_recurring_amended :
    detectRecurringPattern txR3 [txR1, txR2, txR3] =
      { isRecurring := true, pattern := some "monthly" } ∧
    detectRecurringPattern txR1 [txR1, txR2, txR3] =
      { isRecurring := false, pattern := none } ∧
    detectRecurringPattern txR1 [txR1, txR2] =
      { isRecurring := false, pattern := none } := by
  decide

set_option maxHeartbeats 4000000 in
/-- Claim C3, counterexample: against a pattern with recorded range
[0, 10], an amount of 5 should earn the in-range +15 by the claim (which
explicitly includes `amountMin = 0`), but the JS truthiness guard
`pattern.amountMin && pattern.amountMax` skips the factor entirely. -/
theorem c3_counterexample :
    amountFactorClaimed 5 patMinZero = 15 ∧ amountScore 5 patMinZero = 0 := by
  decide

/-- Claim C3, amended: the amount factor equals the claimed piecewise
rule whenever both bounds are present and nonzero, and contributes 0
when either bound is missing or zero. -/
theorem c3_amount_factor_amended (amount : ℚ) (p : Pattern) :
    amountScore amount p = amountFactorAmended amount p := by
  unfold amountScore amountFactorAmended
  cases hmin : p.amountMin with
  | none => simp [truthyQ]
  | some lo =>
      cases hmax : p.amountMax with
      | none => simp [truthyQ]
      | some hi =>
          simp only [truthyQ, Option.getD_some]
          by_cases h1 : lo = 0
          · simp [h1]
          · by_cases h2 : hi = 0
            · simp [h2]
            · rw [if_pos (show ((lo != 0) && (hi != 0)) = true by simp [h1, h2]),
                if_pos (show lo ≠ 0 ∧ hi ≠ 0 from ⟨h1, h2⟩)]

set_option maxHeartbeats 16000000 in
/-- Claim C1: mining the five categorized non-split "WALMART #1234"
transactions (absolute amounts 40-60, category Groceries) into an empty
store yields exactly one Pattern ("Walmart", Groceries, matchCount 5,
amountMin 40, amountMax 60), and `findBestMatch` at threshold 70 on a
new uncategorized "WALMART #9981" transaction of absolute amount 45
returns a match whose confidence (80) is at least 70. -/
theorem c1_end_to_end :
    dbAfterMineC1.patterns.map
        (fun p => (p.merchantName, p.categoryId, p.matchCount, p.amountMin, p.amountMax)) =
      [("Walmart", groceriesId, 5, some 40, some 60)] ∧
    ∃ m, findBestMatch engC1 tNewC1 = some m ∧ 70 ≤ m.confidence :=
  ⟨by decide, matchC1, by decide, by decide⟩

/-- `bumpFirst` preserves the list length. -/
theorem bumpFirst_length (f : Pattern → Pattern) (pid : Nat) (l : List Pattern) :
    (bumpFirst f pid l).length = l.length := by
  induction l with
  | nil => rfl
  | cons p rest ih => by_cases h : p.id = pid <;> simp [bumpFirst, h, ih]

/-- `bumpFirst` is the identity when no element carries the id. -/
theorem bumpFirst_of_not_mem (f : Pattern → Pattern) (pid : Nat) (l : List Pattern)
    (h : ∀ p ∈ l, p.id ≠ pid) : bumpFirst f pid l = l := by
  induction l with
  | nil => rfl
  | cons p rest ih =>
      simp only [bumpFirst]
      rw [if_neg (h p (List.mem_cons_self p rest)),
        ih (fun q hq => h q (List.mem_cons_of_mem p hq))]

/-- When position `i` holds the first element with the given id,
`bumpFirst` applies `f` exactly there and leaves every other position
unchanged. -/
theorem bumpFirst_getElem (f : Pattern → Pattern) (pid : Nat) :
    ∀ (l : List Pattern) (i : Nat) (hi : i < l.length),
      (l.get ⟨i, hi⟩).id = pid →
      (∀ j (hj : j < l.length), j < i → (l.get ⟨j, hj⟩).id ≠ pid) →
      (bumpFirst f pid l)[i]? = some (f (l.get ⟨i, hi⟩)) ∧
      ∀ k, k ≠ i → (bumpFirst f pid l)[k]? = l[k]? := by
  intro l
  induction l with
  | nil => intro i hi; exact absurd hi (Nat.not_lt_zero i)
  | cons p rest ih =>
      intro i hi hid hfirst
      by_cases hp : p.id = pid
      · have hi0 : i = 0 := by
          by_contra hne
          exact hfirst 0 (by omega) (by omega) hp
        subst hi0
        refine ⟨by simp [bumpFirst, hp], ?_⟩
        intro k hk
        match k with
        | 0 => exact absurd rfl hk
        | k + 1 => simp [bumpFirst, hp]
      · have hne : i ≠ 0 := by
          intro h0
          subst h0
          exact hp hid
        obtain ⟨m, rfl⟩ : ∃ m, i = m + 1 := ⟨i - 1, by omega⟩
        have hm : m < rest.length := by
          simpa using hi
        have hid' : (rest.get ⟨m, hm⟩).id = pid := hid
        have hfirst' : ∀ j (hj : j < rest.length), j < m → (rest.get ⟨j, hj⟩).id ≠ pid := by
          intro j hj hjm
          exact hfirst (j + 1) (by omega) (by omega)
        obtain ⟨h1, h2⟩ := ih m hm hid' hfirst'
        refine ⟨by simpa [bumpFirst, hp] using h1, ?_⟩
        intro k hk
        match k with
        | 0 => simp [bumpFirst, hp]
        | k + 1 =>
            have := h2 k (by omega)
            simpa [bumpFirst, hp] using this

/-- `find?` returns the element at the first position satisfying the
predicate. -/
theorem find?_first (p : Pattern → Bool) :
    ∀ (l : List Pattern) (i : Nat) (hi : i < l.length),
      p (l.get ⟨i, hi⟩) = true →
      (∀ j (hj : j < l.length), j < i → p (l.get ⟨j, hj⟩) = false) →
      l.find? p = some (l.get ⟨i, hi⟩) := by
  intro l
  induction l with
  | nil => intro i hi; exact absurd hi (Nat.not_lt_zero i)
  | cons a rest ih =>
      intro i hi hp hfirst
      by_cases ha : p a = true
      · have hi0 : i = 0 := by
          by_contra hne
          have h0 : p a = false := hfirst 0 (by omega) (by omega)
          rw [ha] at h0
          exact Bool.true_eq_false.mp h0
        subst hi0
        simp [List.find?, ha]
      · have hne : i ≠ 0 := by
          intro h0
          subst h0
          exact ha hp
        obtain ⟨m, rfl⟩ : ∃ m, i = m + 1 := ⟨i - 1, by omega⟩
        have hm : m < rest.length := by simpa using hi
        have hfirst' : ∀ j (hj : j < rest.length), j < m → p (rest.get ⟨j, hj⟩) = false := by
          intro j hj hjm
          exact hfirst (j + 1) (by omega) (by omega)
        have := ih m hm hp hfirst'
        simpa [List.find?, Bool.eq_false_iff.mpr ha, ha] using this

/-- Claim C6: for a transaction whose `suggestionPatternId` refers to a
loaded pattern (a nonzero autoincrement id, first found at position
`i`), `denySuggestion` increments exactly that pattern's `denyCount` by
1, clears `categoryId` to null and removes the four suggestion fields
together. -/
theorem c6_deny_suggestion (e : Engine) (t : Transaction) (pid i : Nat)
    (h1 : t.suggestionPatternId = some pid) (h2 : pid ≠ 0)
    (hi : i < e.patterns.length)
    (hid : (e.patterns.get ⟨i, hi⟩).id = pid)
    (hfirst : ∀ j (hj : j < e.patterns.length), j < i → (e.patterns.get ⟨j, hj⟩).id ≠ pid) :
    (denySuggestion e t).2.categoryId = none ∧
    (denySuggestion e t).2.pendingReview = none ∧
    (denySuggestion e t).2.suggestionConfidence = none ∧
    (denySuggestion e t).2.suggestionReasoning = none ∧
    (denySuggestion e t).2.suggestionPatternId = none ∧
    (denySuggestion e t).1.patterns.length = e.patterns.length ∧
    (denySuggestion e t).1.patterns[i]? =
      some { e.patterns.get ⟨i, hi⟩ with
             denyCount := (e.patterns.get ⟨i, hi⟩).denyCount + 1 } := by
  have htr : truthyNat (some pid) = true := by simp [truthyNat, h2]
  simp only [denySuggestion, h1, htr, if_true, Option.getD_some]
  refine ⟨trivial, trivial, trivial, trivial, trivial, bumpFirst_length _ _ _, ?_⟩
  exact (bumpFirst_getElem _ pid e.patterns i hi hid hfirst).1

/-- Witness for C6: denying the suggested Netflix transaction against
the engine that loaded pattern 3. -/
theorem c6_witness :
    tSuggested.suggestionPatternId = some 3 ∧ (3 : Nat) ≠ 0 ∧
    ((denySuggestion engC6 tSuggested).2.categoryId = none ∧
     (denySuggestion engC6 tSuggested).2.pendingReview = none ∧
     (denySuggestion engC6 tSuggested).2.suggestionConfidence = none ∧
     (denySuggestion engC6 tSuggested).2.suggestionReasoning = none ∧
     (denySuggestion engC6 tSuggested).2.suggestionPatternId = none ∧
     (denySuggestion engC6 tSuggested).1.patterns.length = engC6.patterns.length ∧
     (denySuggestion engC6 tSuggested).1.patterns[0]? =
       some { patC6 with denyCount := patC6.denyCount + 1 }) :=
  ⟨rfl, by decide,
   c6_deny_suggestion engC6 tSuggested 3 0 rfl (by decide) (by decide) (by decide)
     (fun j hj h0 => absurd h0 (Nat.not_lt_zero j))⟩

/-- Claim C10: when `suggestionPatternId` is set (nonzero) but matches
no loaded pattern, both feedback operations still clear the suggestion
fields (deny also clears `categoryId`) and leave the engine's patterns
untouched. -/
theorem c10_dangling_reference (now : Nat) (e : Engine) (t : Transaction) (pid : Nat)
    (h1 : t.suggestionPatternId = some pid) (h2 : pid ≠ 0)
    (h3 : ∀ p ∈ e.patterns, p.id ≠ pid) :
    acceptSuggestion now e t =
      (e, { t with pendingReview := none, suggestionConfidence := none,
                   suggestionReasoning := none, suggestionPatternId := none }) ∧
    denySuggestion e t =
      (e, { t with categoryId := none, pendingReview := none, suggestionConfidence := none,
                   suggestionReasoning := none, suggestionPatternId := none }) := by
  have htr : truthyNat (some pid) = true := by simp [truthyNat, h2]
  constructor
  · simp only [acceptSuggestion, h1, htr, if_true, Option.getD_some]
    rw [bumpFirst_of_not_mem _ _ _ h3]
  · simp only [denySuggestion, h1, htr, if_true, Option.getD_some]
    rw [bumpFirst_of_not_mem _ _ _ h3]

/-- Witness for C10: feedback on a transaction referencing the absent
pattern id 42. -/
theorem c10_witness :
    tDangling.suggestionPatternId = some 42 ∧ (42 : Nat) ≠ 0 ∧
    (∀ p ∈ engC6.patterns, p.id ≠ 42) ∧
    (acceptSuggestion 9 engC6 tDangling =
      (engC6, { tDangling with pendingReview := none, suggestionConfidence := none,
                               suggestionReasoning := none, suggestionPatternId := none }) ∧
     denySuggestion engC6 tDangling =
      (engC6, { tDangling with categoryId := none, pendingReview := none,
                               suggestionConfidence := none, suggestionReasoning := none,
                               suggestionPatternId := none })) :=
  ⟨rfl, by decide, by decide,
   c10_dangling_reference 9 engC6 tDangling 42 rfl (by decide) (by decide)⟩

/-- Claim C4, counterexample: merging fresh range [5, 8] into a stored
pattern whose recorded range is [0, 10] yields `amountMin = 5`, not the
union bottom `min 0 5 = 0` — the JS `existing.amountMin || Infinity`
discards a stored minimum of 0, so the merged range shrinks. -/
theorem c4_counterexample :
    (updatePatternsInDatabase dbC4 [minedC4]).patterns.map Pattern.amountMin = [some 5] ∧
    ¬ (updatePatternsInDatabase dbC4 [minedC4]).patterns.map Pattern.amountMin =
        [some (jsMin 0 5)] := by
  decide

/-- Claim C4, amended: merging a freshly mined pattern over the
matching store entry (first key match at position `i`, no earlier entry
sharing its id) replaces that entry in place: `matchCount`, `lastSeen`,
`isRecurring`, `recurrencePattern` are replaced, `acceptCount` and
`denyCount` are untouched, every other store position and the next
autoincrement key are unchanged; `amountMin` becomes the union minimum
only when the stored minimum is present and nonzero and is otherwise
replaced by the new minimum (the bottom of the range can rise); and
`amountMax` becomes the maximum of the new maximum and the stored
maximum (a missing or zero stored maximum counting as 0). -/
theorem c4_merge_amended (db : Db) (n : MinedPattern) (i : Nat)
    (hi : i < db.patterns.length)
    (hkey : ((db.patterns.get ⟨i, hi⟩).merchantName == n.merchantName &&
             (db.patterns.get ⟨i, hi⟩).categoryId == n.categoryId) = true)
    (hfirstkey : ∀ j (hj : j < db.patterns.length), j < i →
      ((db.patterns.get ⟨j, hj⟩).merchantName == n.merchantName &&
       (db.patterns.get ⟨j, hj⟩).categoryId == n.categoryId) = false)
    (hfirstid : ∀ j (hj : j < db.patterns.length), j < i →
      (db.patterns.get ⟨j, hj⟩).id ≠ (db.patterns.get ⟨i, hi⟩).id) :
    (updatePatternsInDatabase db [n]).patterns.length = db.patterns.length ∧
    (updatePatternsInDatabase db [n]).nextId = db.nextId ∧
    (updatePatternsInDatabase db [n]).patterns[i]? =
      some (mergePattern (db.patterns.get ⟨i, hi⟩) n) ∧
    (∀ k, k ≠ i → (updatePatternsInDatabase db [n]).patterns[k]? = db.patterns[k]?) ∧
    (mergePattern (db.patterns.get ⟨i, hi⟩) n).matchCount = n.matchCount ∧
    (mergePattern (db.patterns.get ⟨i, hi⟩) n).lastSeen = n.lastSeen ∧
    (mergePattern (db.patterns.get ⟨i, hi⟩) n).isRecurring = n.isRecurring ∧
    (mergePattern (db.patterns.get ⟨i, hi⟩) n).recurrencePattern = n.recurrencePattern ∧
    (mergePattern (db.patterns.get ⟨i, hi⟩) n).acceptCount =
      (db.patterns.get ⟨i, hi⟩).acceptCount ∧
    (mergePattern (db.patterns.get ⟨i, hi⟩) n).denyCount =
      (db.patterns.get ⟨i, hi⟩).denyCount ∧
    (truthyQ (db.patterns.get ⟨i, hi⟩).amountMin = true →
      (mergePattern (db.patterns.get ⟨i, hi⟩) n).amountMin =
        some (jsMin ((db.patterns.get ⟨i, hi⟩).amountMin.getD 0) n.amountMin)) ∧
    (truthyQ (db.patterns.get ⟨i, hi⟩).amountMin = false →
      (mergePattern (db.patterns.get ⟨i, hi⟩) n).amountMin = some n.amountMin) ∧
    (truthyQ (db.patterns.get ⟨i, hi⟩).amountMax = true →
      (mergePattern (db.patterns.get ⟨i, hi⟩) n).amountMax =
        some (jsMax ((db.patterns.get ⟨i, hi⟩).amountMax.getD 0) n.amountMax)) ∧
    (truthyQ (db.patterns.get ⟨i, hi⟩).amountMax = false →
      (mergePattern (db.patterns.get ⟨i, hi⟩) n).amountMax =
        some (jsMax 0 n.amountMax)) := by
  have hfind : db.patterns.find? (fun p =>
      p.merchantName == n.merchantName && p.categoryId == n.categoryId) =
      some (db.patterns.get ⟨i, hi⟩) :=
    find?_first _ db.patterns i hi hkey hfirstkey
  have hun : updatePatternsInDatabase db [n] =
      Db.updatePattern db (mergePattern (db.patterns.get ⟨i, hi⟩) n) := by
    simp [updatePatternsInDatabase, hfind]
  rw [hun]
  unfold Db.updatePattern
  obtain ⟨hget, hother⟩ :=
    bumpFirst_getElem (fun _ => mergePattern (db.patterns.get ⟨i, hi⟩) n)
      (mergePattern (db.patterns.get ⟨i, hi⟩) n).id db.patterns i hi rfl hfirstid
  refine ⟨bumpFirst_length _ _ _, rfl, hget, hother, rfl, rfl, rfl, rfl, rfl, rfl,
    ?_, ?_, ?_, ?_⟩ <;> intro h <;> simp only [List.get_eq_getElem] at h <;>
    simp [mergePattern, h]

/-- Witness for the amended C4: merging the fresh [5, 8] range into a
stored pattern with recorded range [2, 10]. -/
theorem c4_witness :
    ((patC4W.merchantName == minedC4.merchantName &&
      patC4W.categoryId == minedC4.categoryId) = true) ∧
    ((updatePatternsInDatabase dbC4W [minedC4]).patterns.length = dbC4W.patterns.length ∧
     (updatePatternsInDatabase dbC4W [minedC4]).nextId = dbC4W.nextId ∧
     (updatePatternsInDatabase dbC4W [minedC4]).patterns[0]? =
       some (mergePattern patC4W minedC4) ∧
     (∀ k, k ≠ 0 → (updatePatternsInDatabase dbC4W [minedC4]).patterns[k]? =
       dbC4W.patterns[k]?) ∧
     (mergePattern patC4W minedC4).matchCount = minedC4.matchCount ∧
     (mergePattern patC4W minedC4).lastSeen = minedC4.lastSeen ∧
     (mergePattern patC4W minedC4).isRecurring = minedC4.isRecurring ∧
     (mergePattern patC4W minedC4).recurrencePattern = minedC4.recurrencePattern ∧
     (mergePattern patC4W minedC4).acceptCount = patC4W.acceptCount ∧
     (mergePattern patC4W minedC4).denyCount = patC4W.denyCount ∧
     (truthyQ patC4W.amountMin = true →
       (mergePattern patC4W minedC4).amountMin =
         some (jsMin (patC4W.amountMin.getD 0) minedC4.amountMin)) ∧
     (truthyQ patC4W.amountMin = false →
       (mergePattern patC4W minedC4).amountMin = some minedC4.amountMin) ∧
     (truthyQ patC4W.amountMax = true →
       (mergePattern patC4W minedC4).amountMax =
         some (jsMax (patC4W.amountMax.getD 0) minedC4.amountMax)) ∧
     (truthyQ patC4W.amountMax = false →
       (mergePattern patC4W minedC4).amountMax = some (jsMax 0 minedC4.amountMax))) :=
  ⟨by decide,
   c4_merge_amended dbC4W minedC4 0 (by decide) (by decide)
     (fun j hj h0 => absurd h0 (Nat.not_lt_zero j))
     (fun j hj h0 => absurd h0 (Nat.not_lt_zero j))⟩

set_option maxHeartbeats 4000000 in
/-- Claim C5, counterexample: with threshold 0 (legal per the spec) and
a single pattern scoring exactly 0, the best match scores exactly the
threshold yet `findBestMatch` returns no match — the loop only records
matches with confidence strictly above the initial 0. -/
theorem c5_counterexample :
    normalizeMerchant tPlain.description ≠ "" ∧
    calculateConfidence tPlain patEmptyName = 0 ∧
    engC5cx.confidenceThreshold ≤ calculateConfidence tPlain patEmptyName ∧
    findBestMatch engC5cx tPlain = none := by
  decide

/-- The starting accumulator is a lower bound of the running maximum. -/
theorem foldl_max_le (t : Transaction) :
    ∀ (ps : List Pattern) (c : ℚ),
      c ≤ ps.foldl (fun m p => max m (calculateConfidence t p)) c := by
  intro ps
  induction ps with
  | nil => intro c; exact le_refl c
  | cons p rest ih =>
      intro c
      exact le_trans (le_max_left c (calculateConfidence t p)) (ih _)

/-- The loop's final `bestConfidence` is the running maximum of the
confidences over the scanned patterns. -/
theorem bestLoop_snd (t : Transaction) :
    ∀ (ps : List Pattern) (acc : Option BestMatch × ℚ),
      (bestLoop t ps acc).2 = ps.foldl (fun m p => max m (calculateConfidence t p)) acc.2 := by
  intro ps
  induction ps with
  | nil => intro acc; rfl
  | cons p rest ih =>
      intro acc
      have hstep : bestLoop t (p :: rest) acc =
          if acc.2 < calculateConfidence t p then
            bestLoop t rest
              (some { pattern := p, confidence := calculateConfidence t p,
                      reasoning := generateReasoning t p (calculateConfidence t p) },
               calculateConfidence t p)
          else bestLoop t rest acc := rfl
      by_cases h : acc.2 < calculateConfidence t p
      · rw [hstep, if_pos h, ih, List.foldl_cons]
        rw [show max acc.2 (calculateConfidence t p) = calculateConfidence t p from
          max_eq_right (le_of_lt h)]
      · rw [hstep, if_neg h, ih, List.foldl_cons]
        rw [show max acc.2 (calculateConfidence t p) = acc.2 from max_eq_left (not_lt.mp h)]

/-- Characterization of the scanning loop of `findBestMatch`: either no
pattern ever beat the accumulator (the accumulator is returned
unchanged), or the recorded match is built from the first pattern
attaining the final best confidence, every earlier pattern scoring
strictly below it. -/
theorem bestLoop_char (t : Transaction) :
    ∀ (ps : List Pattern) (acc : Option BestMatch × ℚ),
      bestLoop t ps acc = acc ∨
      (∃ i, ∃ hi : i < ps.length,
        (bestLoop t ps acc).1 = some
          { pattern := ps.get ⟨i, hi⟩,
            confidence := (bestLoop t ps acc).2,
            reasoning := generateReasoning t (ps.get ⟨i, hi⟩) ((bestLoop t ps acc).2) } ∧
        calculateConfidence t (ps.get ⟨i, hi⟩) = (bestLoop t ps acc).2 ∧
        (∀ j (hj : j < ps.length), j < i →
          calculateConfidence t (ps.get ⟨j, hj⟩) < (bestLoop t ps acc).2) ∧
        acc.2 < (bestLoop t ps acc).2) := by
  intro ps
  induction ps with
  | nil => intro acc; exact Or.inl rfl
  | cons p rest ih =>
      intro acc
      have hstep : bestLoop t (p :: rest) acc =
          if acc.2 < calculateConfidence t p then
            bestLoop t rest
              (some { pattern := p, confidence := calculateConfidence t p,
                      reasoning := generateReasoning t p (calculateConfidence t p) },
               calculateConfidence t p)
          else bestLoop t rest acc := rfl
      by_cases h : acc.2 < calculateConfidence t p
      · have heq : bestLoop t (p :: rest) acc =
            bestLoop t rest
              (some { pattern := p, confidence := calculateConfidence t p,
                      reasoning := generateReasoning t p (calculateConfidence t p) },
               calculateConfidence t p) := by rw [hstep, if_pos h]
        rcases ih (some { pattern := p, confidence := calculateConfidence t p,
                          reasoning := generateReasoning t p (calculateConfidence t p) },
                   calculateConfidence t p) with h1 | ⟨i, hi, hm, hc, hprev, hlt⟩
        · right
          refine ⟨0, by simp, ?_, ?_, ?_, ?_⟩
          · rw [heq, h1]
            rfl
          · rw [heq, h1]
            rfl
          · intro j hj hj0
            exact absurd hj0 (Nat.not_lt_zero j)
          · rw [heq, h1]
            exact h
        · right
          refine ⟨i + 1, by simp only [List.length_cons]; omega, ?_, ?_, ?_, ?_⟩
          · rw [heq]
            exact hm
          · rw [heq]
            exact hc
          · intro j hj hji
            rw [heq]
            cases j with
            | zero => exact hlt
            | succ j => exact hprev j (by simp only [List.length_cons] at hj; omega) (by omega)
          · rw [heq]
            exact lt_trans h hlt
      · have heq : bestLoop t (p :: rest) acc = bestLoop t rest acc := by rw [hstep, if_neg h]
        rcases ih acc with h1 | ⟨i, hi, hm, hc, hprev, hlt⟩
        · left
          rw [heq, h1]
        · right
          refine ⟨i + 1, by simp only [List.length_cons]; omega, ?_, ?_, ?_, ?_⟩
          · rw [heq]
            exact hm
          · rw [heq]
            exact hc
          · intro j hj hji
            rw [heq]
            cases j with
            | zero => exact lt_of_le_of_lt (not_lt.mp h) hlt
            | succ j => exact hprev j (by simp only [List.length_cons] at hj; omega) (by omega)
          · rw [heq]
            exact hlt

/-- Claim C5, amended: `findBestMatch` (with a nonempty normalized
merchant) scans every loaded pattern; it returns no match exactly when
the maximum confidence is 0 or below the threshold, and any returned
match carries the maximum confidence, reaches the threshold, is
strictly positive, and is built from the first pattern attaining that
maximum (ties keep the first encountered).  In particular a best match
scoring exactly a positive threshold is accepted, but a best score of 0
is never returned even at threshold 0. -/
theorem c5_find_best_match_amended (e : Engine) (t : Transaction)
    (h : ¬ normalizeMerchant t.description = "") :
    (findBestMatch e t = none ↔
      (maxConfidence t e.patterns = 0 ∨
       maxConfidence t e.patterns < e.confidenceThreshold)) ∧
    (∀ m, findBestMatch e t = some m →
      m.confidence = maxConfidence t e.patterns ∧
      e.confidenceThreshold ≤ maxConfidence t e.patterns ∧
      0 < maxConfidence t e.patterns ∧
      ∃ i, ∃ hi : i < e.patterns.length,
        m.pattern = e.patterns.get ⟨i, hi⟩ ∧
        calculateConfidence t (e.patterns.get ⟨i, hi⟩) = maxConfidence t e.patterns ∧
        ∀ j (hj : j < e.patterns.length), j < i →
          calculateConfidence t (e.patterns.get ⟨j, hj⟩) < maxConfidence t e.patterns) := by
  have hM : (bestLoop t e.patterns (none, 0)).2 = maxConfidence t e.patterns :=
    bestLoop_snd t e.patterns (none, 0)
  rcases bestLoop_char t e.patterns (none, 0) with h1 | ⟨i, hi, hm, hc, hprev, hlt⟩
  · have hM0 : maxConfidence t e.patterns = 0 := by
      rw [← hM, h1]
    have hfb : findBestMatch e t = none := by
      simp only [findBestMatch, if_neg h, h1]
    constructor
    · rw [hfb]
      simp [hM0]
    · intro m hm'
      rw [hfb] at hm'
      exact absurd hm' (by simp)
  · have hpos : 0 < maxConfidence t e.patterns := by
      rw [← hM]
      exact hlt
    have hfb : findBestMatch e t =
        if e.confidenceThreshold ≤ (bestLoop t e.patterns (none, 0)).2 then
          some { pattern := e.patterns.get ⟨i, hi⟩,
                 confidence := (bestLoop t e.patterns (none, 0)).2,
                 reasoning := generateReasoning t (e.patterns.get ⟨i, hi⟩)
                   ((bestLoop t e.patterns (none, 0)).2) }
        else none := by
      simp only [findBestMatch, if_neg h, hm]
    constructor
    · rw [hfb]
      by_cases hth : e.confidenceThreshold ≤ (bestLoop t e.patterns (none, 0)).2
      · rw [if_pos hth]
        simp only [reduceCtorEq, false_iff]
        push_neg
        refine ⟨fun h0 => ?_, by rw [← hM]; exact hth⟩
        rw [h0] at hpos
        exact lt_irrefl 0 hpos
      · rw [if_neg hth]
        simp only [true_iff]
        right
        rw [← hM]
        exact lt_of_not_le hth
    · intro m hm'
      rw [hfb] at hm'
      by_cases hth : e.confidenceThreshold ≤ (bestLoop t e.patterns (none, 0)).2
      · rw [if_pos hth] at hm'
        have hmEq := Option.some_injective _ hm'.symm
        refine ⟨by rw [hmEq, ← hM], by rw [← hM]; exact hth, hpos, i, hi, by rw [hmEq],
          by rw [← hM]; exact hc, ?_⟩
        intro j hj hji
        rw [← hM]
        exact hprev j hj hji
      · rw [if_neg hth] at hm'
        exact absurd hm' (by simp)

set_option maxHeartbeats 16000000 in
/-- Witness for the amended C5 at the mined Walmart engine and the
"WALMART #9981" probe. -/
theorem c5_witness :
    (¬ normalizeMerchant tNewC1.description = "") ∧
    ((findBestMatch engC1 tNewC1 = none ↔
       (maxConfidence tNewC1 engC1.patterns = 0 ∨
        maxConfidence tNewC1 engC1.patterns < engC1.confidenceThreshold)) ∧
     (∀ m, findBestMatch engC1 tNewC1 = some m →
       m.confidence = maxConfidence tNewC1 engC1.patterns ∧
       engC1.confidenceThreshold ≤ maxConfidence tNewC1 engC1.patterns ∧
       0 < maxConfidence tNewC1 engC1.patterns ∧
       ∃ i, ∃ hi : i < engC1.patterns.length,
         m.pattern = engC1.patterns.get ⟨i, hi⟩ ∧
         calculateConfidence tNewC1 (engC1.patterns.get ⟨i, hi⟩) =
           maxConfidence tNewC1 engC1.patterns ∧
         ∀ j (hj : j < engC1.patterns.length), j < i →
           calculateConfidence tNewC1 (engC1.patterns.get ⟨j, hj⟩) <
             maxConfidence tNewC1 engC1.patterns)) :=
  ⟨by decide, c5_find_best_match_amended engC1 tNewC1 (by decide)⟩

end MoneyTracker
